import Mathlib

/-!
Shallow embedding of the WatchlistPlus application core (`src/js/app.js`).

The persisted state is an array of watchlist objects in localStorage; the
operations embedded here are the state-mutation layer of the app:
`loadWatchlists`, `saveWatchlists`, `validatePosterUrl`,
`createShareableWatchlist`, `validateImportedWatchlist`, `importWatchlist`,
and the form/click handlers that create watchlists, add movies, mark movies
watched and set reviews.

Modelling conventions:
* JS strings are Lean `String`; `String.prototype.trim` / `toLowerCase` are
  modelled by `jsTrim` / `jsToLower` (ASCII-faithful).
* `crypto.randomUUID()` is modelled by a natural-number counter threaded
  through the state (`St.gen`); ids are `Nat`.
* `localStorage` writes can fail (quota, private browsing); `St.saveOk`
  says whether `localStorage.setItem` succeeds.  `alert(...)` calls are
  recorded in `St.alerts`.
* `JSON.parse` results are modelled by the dynamic value type `JVal`;
  a parse failure is `Option.none` at the import boundary.
* In-place mutation of the object returned by `Array.prototype.find`
  followed by saving the whole array is modelled by `updFirst`, which
  rewrites the first element satisfying the predicate.
-/

namespace WatchlistPlus

/-- Dynamic JSON-like values, the result of `JSON.parse`. -/
inductive JVal where
  | null
  | bool (b : Bool)
  | num (n : Int)
  | str (s : String)
  | arr (xs : List JVal)
  | obj (fields : List (String × JVal))

/-- JS truthiness of a parsed JSON value (`undefined`/`NaN` cannot occur). -/
def jsTruthy : JVal → Bool
  | .null => false
  | .bool b => b
  | .num n => n != 0
  | .str s => s != ""
  | .arr _ => true
  | .obj _ => true

/-- Is the value a JSON array (`Array.isArray`)? -/
def isArr : JVal → Bool
  | .arr _ => true
  | _ => false

/-- `typeof v === "object" ` for parsed JSON values: objects, arrays and
`null` all have typeof `"object"`. -/
def isTypeofObject : JVal → Bool
  | .obj _ => true
  | .arr _ => true
  | .null => true
  | _ => false

/-- Field lookup in an object's field list (our payloads have distinct keys). -/
def lookupField : List (String × JVal) → String → Option JVal
  | [], _ => none
  | (k', v) :: rest, k => if k' = k then some v else lookupField rest k

/-- JS property access `v[k]`: `undefined` (here `none`) unless `v` is an
object with the field.  (Array index properties are never accessed by name
in the embedded code.) -/
def getField : JVal → String → Option JVal
  | .obj fs, k => lookupField fs k
  | _, _ => none

/-- Coerce an optional field to the string it holds, defaulting to `""`
(only used after validation has established it is a string). -/
def getStr : Option JVal → String
  | some (.str s) => s
  | _ => ""

/-- Coerce an optional field to the array it holds, defaulting to `[]`
(only used after validation has established it is an array). -/
def getArr : Option JVal → List JVal
  | some (.arr xs) => xs
  | _ => []

/-- JS whitespace for `String.prototype.trim` (ASCII subset). -/
def isJsSpace (c : Char) : Bool :=
  c = ' ' || c = '\t' || c = '\n' || c = '\r' || c = '\x0b' || c = '\x0c'

/-- Model of `String.prototype.trim`. -/
def jsTrim (s : String) : String :=
  String.mk (((s.data.dropWhile isJsSpace).reverse.dropWhile isJsSpace).reverse)

/-- Model of `String.prototype.toLowerCase` (ASCII-faithful). -/
def jsToLower (s : String) : String :=
  String.mk (s.data.map Char.toLower)

/-- Split a character list at the first `':'`, returning the part before and
the part after it. -/
def splitAtColon : List Char → Option (List Char × List Char)
  | [] => none
  | c :: rest =>
    if c = ':' then some ([], rest)
    else match splitAtColon rest with
      | none => none
      | some (a, b) => some (c :: a, b)

/-- URL scheme grammar: one ALPHA then ALPHA / DIGIT / `+` / `-` / `.`. -/
def validSchemeChars : List Char → Bool
  | [] => false
  | c :: rest => c.isAlpha && rest.all (fun d => d.isAlphanum || d = '+' || d = '-' || d = '.')

/-- Special schemes that require a nonempty host (`file:` excluded since it
permits an empty host and is irrelevant to the embedded checks). -/
def specialSchemes : List String := ["http:", "https:", "ws:", "wss:", "ftp:"]

/-- Model of the platform's WHATWG `new URL(text)` constructor, reduced to
what `validatePosterUrl` observes: `some protocol` when parsing succeeds
(scheme extracted and lowercased, like `URL.prototype.protocol`), `none`
when the constructor would throw (no scheme / invalid scheme characters /
special scheme with an empty host — e.g. relative references and
`"http://"`). -/
def parseProtocol (url : String) : Option String :=
  match splitAtColon url.data with
  | none => none
  | some (schemeCs, rest) =>
    if validSchemeChars schemeCs then
      let proto := String.mk (schemeCs.map Char.toLower) ++ ":"
      if specialSchemes.contains proto then
        let afterSlashes := rest.dropWhile (fun c => c = '/' || c = '\\')
        let host := afterSlashes.takeWhile (fun c => c ≠ '/' && c ≠ '?' && c ≠ '#' && c ≠ '\\')
        if host.isEmpty then none else some proto
      else some proto
    else none

/-- `validatePosterUrl` (app.js:104-112): reject falsy input, then accept
exactly the URLs that parse with protocol `http:` or `https:`; a parser
throw is caught and mapped to `false`. -/
def validatePosterUrl (url : String) : Bool :=
  if url = "" then false
  else match parseProtocol url with
    | none => false
    | some p => p == "http:" || p == "https:"

/-- A movie item record (see the data-structure comment in app.js). -/
structure MovieItem where
  id : Nat
  title : String
  posterUrl : String
  watched : Bool
  order : Int
  review : String
deriving Repr, DecidableEq

/-- A watchlist record. -/
structure Watchlist where
  id : Nat
  title : String
  icon : String
  items : List MovieItem
deriving Repr, DecidableEq

/-- Application state: the durable collection (decoded localStorage blob),
the id-generation counter, whether `localStorage.setItem` currently
succeeds, and the `alert` messages shown so far. -/
structure St where
  watchlists : List Watchlist
  gen : Nat
  saveOk : Bool
  alerts : List String
deriving Repr, DecidableEq

/-- `saveWatchlists` (app.js:86-94): on success the blob is replaced; a
failing write is caught, and only an alert is produced — the caller is not
told, no error propagates. -/
def saveWatchlists (ws : List Watchlist) (s : St) : St :=
  if s.saveOk then { s with watchlists := ws }
  else { s with alerts := s.alerts ++ ["Unable to save changes. Your storage may be full."] }

/-- Rewrite the first element satisfying `p` with `f`: models JS in-place
mutation of the object returned by `Array.prototype.find` inside the array
that is subsequently saved. -/
def updFirst (p : α → Bool) (f : α → α) : List α → List α
  | [] => []
  | x :: xs => if p x then f x :: xs else x :: updFirst p f xs

/-- `movie.watched = true` (app.js:573), as an item update. -/
def setWatchedTrue (m : MovieItem) : MovieItem := { m with watched := true }

/-- `movie.review = review` (app.js:594), as an item update. -/
def setReviewTo (review : String) (m : MovieItem) : MovieItem := { m with review := review }

/-- The in-place mutation of the resolved watchlist performed by the
toggle-watched handler: its movie with id `iid` gets `watched = true`. -/
def markItemUpd (iid : Nat) (wl : Watchlist) : Watchlist :=
  { wl with items := updFirst (fun x => x.id == iid) setWatchedTrue wl.items }

/-- The in-place mutation of the resolved watchlist performed by the review
form handler: its movie with id `iid` gets the new review text. -/
def reviewItemUpd (iid : Nat) (review : String) (wl : Watchlist) : Watchlist :=
  { wl with items := updFirst (fun x => x.id == iid) (setReviewTo review) wl.items }

/-- `formCreate` submit handler (app.js:631-650): trim the title, bail out
when empty, pick the icon from the one-element rotation pool, append a new
watchlist with no items, save. -/
def createWatchlist (title : String) (s : St) : St :=
  let t := jsTrim title
  if t = "" then s
  else
    let ws := s.watchlists
    let icons : List String := ["🍿"]
    let icon := (icons.get? (ws.length % icons.length)).getD ""
    saveWatchlists (ws ++ [{ id := s.gen, title := t, icon := icon, items := [] }])
      { s with gen := s.gen + 1 }

/-- `formCreateMovie` submit handler (app.js:600-630): trim both inputs,
bail out when either is empty, alert and bail out when the poster URL fails
validation, bail out when the watchlist does not resolve; otherwise append
a movie with a fresh id, `watched = false`, `order` = current item count,
`review = ""`, and save. -/
def addItem (wid : Nat) (posterUrlRaw titleRaw : String) (s : St) : St :=
  let posterUrl := jsTrim posterUrlRaw
  let title := jsTrim titleRaw
  if posterUrl = "" || title = "" then s
  else if !validatePosterUrl posterUrl then
    { s with alerts := s.alerts ++ ["Please enter a valid http or https URL for the poster."] }
  else
    match s.watchlists.find? (fun wl => wl.id == wid) with
    | none => s
    | some w =>
      let movie : MovieItem :=
        { id := s.gen, title := title, posterUrl := posterUrl, watched := false
          order := (w.items.length : Int), review := "" }
      saveWatchlists
        (updFirst (fun wl => wl.id == wid) (fun wl => { wl with items := wl.items ++ [movie] })
          s.watchlists)
        { s with gen := s.gen + 1 }

/-- `toggle-watched` click handler (app.js:560-579): resolve the watchlist
and the movie; the only write to `watched` sets it to `true`; save.  The
returned flag records whether the handler reached the mutation (it has no
error path — an unresolved id is an early return). -/
def markWatched (wid iid : Nat) (s : St) : Bool × St :=
  match s.watchlists.find? (fun wl => wl.id == wid) with
  | none => (false, s)
  | some w =>
    match w.items.find? (fun m => m.id == iid) with
    | none => (false, s)
    | some _ =>
      (true, saveWatchlists (updFirst (fun wl => wl.id == wid) (markItemUpd iid) s.watchlists) s)

/-- `formReview` submit handler (app.js:583-598): trim the review text,
resolve the watchlist and the movie, replace the review, save. -/
def setReview (wid iid : Nat) (text : String) (s : St) : St :=
  let review := jsTrim text
  match s.watchlists.find? (fun wl => wl.id == wid) with
  | none => s
  | some w =>
    match w.items.find? (fun m => m.id == iid) with
    | none => s
    | some _ =>
      saveWatchlists (updFirst (fun wl => wl.id == wid) (reviewItemUpd iid review) s.watchlists) s

/-- The item construction inside `createShareableWatchlist`'s
`items.map((movie, index) => ...)` (app.js:175-182): fresh id per item,
title and posterUrl copied, `watched` reset to `false`, `order` = position,
`review` cleared.  `g` is the id counter, `idx` the map index. -/
def shareItems : List (String × String) → Nat → Nat → List MovieItem
  | [], _, _ => []
  | (t, p) :: rest, g, idx =>
    { id := g, title := t, posterUrl := p, watched := false, order := (idx : Int), review := "" }
      :: shareItems rest (g + 1) (idx + 1)

/-- Core of `createShareableWatchlist` (app.js:168-184).  The source reads
exactly `title`, `icon` and each item's `title`/`posterUrl` from its
argument (which is a stored watchlist on the share path and parsed import
data on the import path), so it is factored over those parts here.  The
watchlist id is generated before the item ids. -/
def createShareableOf (title icon : String) (parts : List (String × String)) (g : Nat) :
    Watchlist × Nat :=
  ({ id := g, title := title, icon := icon, items := shareItems parts (g + 1) 0 },
    g + 1 + parts.length)

/-- `createShareableWatchlist` applied to a stored watchlist. -/
def createShareableWatchlist (w : Watchlist) (g : Nat) : Watchlist × Nat :=
  createShareableOf w.title w.icon (w.items.map (fun m => (m.title, m.posterUrl))) g

/-- JSON encoding of a movie item as produced by `JSON.stringify` on the
share path (ids are uuid strings in JS; the numeric model id is rendered as
its decimal string — the import path never reads the `id` field). -/
def encodeItem (m : MovieItem) : JVal :=
  .obj [("id", .str (toString m.id)), ("title", .str m.title), ("posterUrl", .str m.posterUrl),
    ("watched", .bool m.watched), ("order", .num m.order), ("review", .str m.review)]

/-- JSON encoding of a watchlist as produced by `JSON.stringify`. -/
def encodeWatchlist (w : Watchlist) : JVal :=
  .obj [("id", .str (toString w.id)), ("title", .str w.title), ("icon", .str w.icon),
    ("items", .arr (w.items.map encodeItem))]

/-- The share path (`handleShareWatchlist`, app.js:138-162) as seen by a
later import: `JSON.stringify(createShareableWatchlist(watchlist))`, i.e.
the parsed form of the exported text. -/
def exportWatchlist (w : Watchlist) (g : Nat) : JVal × Nat :=
  (encodeWatchlist (createShareableWatchlist w g).1, (createShareableWatchlist w g).2)

/-- State effect of `handleShareWatchlist` (app.js:138-162): it only reads
the collection but advances the id generator through
`createShareableWatchlist`. -/
def handleShareWatchlist (wid : Nat) (s : St) : St :=
  match s.watchlists.find? (fun wl => wl.id == wid) with
  | none => s
  | some w => { s with gen := (createShareableWatchlist w s.gen).2 }

/-- Per-item check inside `validateImportedWatchlist` (app.js:197-207). -/
def validItem (item : JVal) : Bool :=
  jsTruthy item &&
  (match getField item "title" with | some (.str t) => jsTrim t != "" | _ => false) &&
  (match getField item "posterUrl" with | some (.str p) => validatePosterUrl p | _ => false) &&
  (match getField item "watched" with | some (.bool _) => true | _ => false) &&
  (match getField item "order" with | some (.num _) => true | _ => false)

/-- `validateImportedWatchlist` (app.js:190-208). -/
def validateImportedWatchlist (data : JVal) : Bool :=
  (isTypeofObject data && jsTruthy data) &&
  (match getField data "title" with | some (.str t) => jsTrim t != "" | _ => false) &&
  (match getField data "icon" with | some (.str _) => true | _ => false) &&
  (match getField data "items" with | some (.arr items) => items.all validItem | _ => false)

/-- The `(title, posterUrl)` pair `createShareableWatchlist` reads from a
parsed item on the import path. -/
def extractParts (item : JVal) : String × String :=
  (getStr (getField item "title"), getStr (getField item "posterUrl"))

/-- `importWatchlist` (app.js:214-256).  The input is the result of
`JSON.parse` on the pasted text (`none` when parsing threw).  Invalid data
alerts and returns `false`; otherwise the title is suffixed with
`" (Shared with me)"` when some existing watchlist's lowercased title
matches, the payload is passed through `createShareableWatchlist` for fresh
ids and reset state, appended and saved — and the function returns `true`
whether or not the save succeeded. -/
def importWatchlist (input : Option JVal) (s : St) : Bool × St :=
  match input with
  | none =>
    (false, { s with alerts := s.alerts ++ ["Could not import watchlist. Please make sure you pasted the correct text."] })
  | some data =>
    if validateImportedWatchlist data then
      let ws := s.watchlists
      let title0 := getStr (getField data "title")
      let hasDup := ws.any (fun wl => jsToLower wl.title == jsToLower title0)
      let title := if hasDup then title0 ++ " (Shared with me)" else title0
      let nwg := createShareableOf title (getStr (getField data "icon"))
        ((getArr (getField data "items")).map extractParts) s.gen
      (true, saveWatchlists (ws ++ [nwg.1]) { s with gen := nwg.2 })
    else
      (false, { s with alerts := s.alerts ++ ["Invalid watchlist data. Please make sure you copied the entire text."] })

/-- The watchlist record the success branch of `importWatchlist` appends:
the (possibly suffixed) title, the payload's icon, and the payload's item
parts run through the `createShareableWatchlist` transformation with the
current generator value. -/
def importedWatchlist (d : JVal) (s : St) : Watchlist :=
  (createShareableOf
    (if s.watchlists.any (fun wl => jsToLower wl.title == jsToLower (getStr (getField d "title")))
      then getStr (getField d "title") ++ " (Shared with me)"
      else getStr (getField d "title"))
    (getStr (getField d "icon"))
    ((getArr (getField d "items")).map extractParts) s.gen).1

/-- What `localStorage.getItem(STORAGE_KEY)` can hold, as seen through
`JSON.parse`: key absent, present-but-unparsable text, or text parsing to a
JSON value. -/
inductive StoredBlob where
  | absent
  | garbage
  | json (v : JVal)

/-- `loadWatchlists` (app.js:76-84): `JSON.parse(localStorage.getItem(KEY)) || []`
inside try/catch.  An absent key parses (via string coercion of `null`) to
`null`, which is falsy; a parse throw is caught; a successfully parsed
value is returned as-is when truthy, and replaced by `[]` when falsy. -/
def loadWatchlists : StoredBlob → JVal
  | .absent => .arr []
  | .garbage => .arr []
  | .json v => if jsTruthy v then v else .arr []

/-- The operations of the mutation layer, for sequences of calls. -/
inductive Op where
  | create (title : String)
  | add (wid : Nat) (posterUrl title : String)
  | mark (wid iid : Nat)
  | review (wid iid : Nat) (text : String)
  | exportOp (wid : Nat)
  | importOp (input : Option JVal)

/-- One operation applied to the state. -/
def stepOp (s : St) : Op → St
  | .create t => createWatchlist t s
  | .add wid p t => addItem wid p t s
  | .mark wid iid => (markWatched wid iid s).2
  | .review wid iid t => setReview wid iid t s
  | .exportOp wid => handleShareWatchlist wid s
  | .importOp inp => (importWatchlist inp s).2

/-- A sequence of operations applied to the state. -/
def runOps (s : St) (ops : List Op) : St := ops.foldl stepOp s

/-- The item at watchlist position `wi`, item position `ii` of a stored
collection (positions are stable: no operation removes or reorders). -/
def itemAt (ws : List Watchlist) (wi ii : Nat) : Option MovieItem :=
  match ws.get? wi with
  | none => none
  | some w => w.items.get? ii

/-- All record ids in the collection are below the generator counter; every
reachable state satisfies this, and it makes freshly generated ids new. -/
def IdsBelow (s : St) : Prop :=
  ∀ w ∈ s.watchlists, w.id < s.gen ∧ ∀ m ∈ w.items, m.id < s.gen

instance (s : St) : Decidable (IdsBelow s) := by
  unfold IdsBelow; infer_instance

/-- Replace the value of key `k` in a field list (first occurrence), or
append the binding when the key is absent. -/
def setFieldList : List (String × JVal) → String → JVal → List (String × JVal)
  | [], k, v => [(k, v)]
  | (k', v') :: rest, k, v =>
    if k' = k then (k, v) :: rest else (k', v') :: setFieldList rest k v

/-- Set a field of a JSON object; non-objects are returned unchanged. -/
def setField : JVal → String → JVal → JVal
  | .obj fs, k, v => .obj (setFieldList fs k v)
  | other, _, _ => other

/-- Item-level monotone simulation: every item position present on the left
is present on the right, and a watched item stays watched. -/
def ItemsMono (ms ms' : List MovieItem) : Prop :=
  ∀ ii m, ms.get? ii = some m →
    ∃ m', ms'.get? ii = some m' ∧ (m.watched = true → m'.watched = true)

/-- Collection-level monotone simulation over item positions. -/
def MonoW (ws ws' : List Watchlist) : Prop :=
  ∀ wi ii m, itemAt ws wi ii = some m →
    ∃ m', itemAt ws' wi ii = some m' ∧ (m.watched = true → m'.watched = true)

/-- Empty store with working persistence, for concrete instantiations. -/
def emptyStore : St := { watchlists := [], gen := 0, saveOk := true, alerts := [] }

/-- A structurally invalid import payload: its item's `watched` field is
the string `"yes"`, not a boolean. -/
def nonBooleanWatchedPayload : JVal :=
  .obj [("title", .str "A"), ("icon", .str "i"),
    ("items", .arr [.obj [("title", .str "M"), ("posterUrl", .str "https://x/y"),
      ("watched", .str "yes"), ("order", .num 0)]])]

/-- Sample stored item, for concrete instantiations. -/
def ironMan : MovieItem :=
  { id := 1, title := "Iron Man", posterUrl := "https://img/im.jpg",
    watched := false, order := 0, review := "" }

/-- Sample stored watchlist, for concrete instantiations. -/
def mcuList : Watchlist := { id := 0, title := "MCU", icon := "🍿", items := [ironMan] }

/-- Sample store holding `mcuList`, with working persistence. -/
def mcuStore : St := { watchlists := [mcuList], gen := 2, saveOk := true, alerts := [] }

/-- The item `addItem` appends in the concrete C6 instantiation. -/
def ironMan2 : MovieItem :=
  { id := 2, title := jsTrim "Iron Man 2", posterUrl := jsTrim "https://img/im2.jpg",
    watched := false, order := (1 : Int), review := "" }

/-- Sample watchlist titled "X". -/
def xList : Watchlist := { id := 0, title := "X", icon := "🍿", items := [] }

/-- Sample watchlist already carrying the collision suffix. -/
def xSharedList : Watchlist := { id := 1, title := "X (Shared with me)", icon := "🍿", items := [] }

/-- Store containing both "X" and "X (Shared with me)". -/
def xStore : St := { watchlists := [xList, xSharedList], gen := 2, saveOk := true, alerts := [] }

/-- A valid import payload titled "X" with no items. -/
def xPayload : JVal := .obj [("title", .str "X"), ("icon", .str "i"), ("items", .arr [])]

/-- A valid import payload whose icon field the C9 instantiation varies. -/
def iconProbe : JVal := .obj [("title", .str "A"), ("icon", .str "x"), ("items", .arr [])]

/-- Sample already-watched item, for the monotonicity instantiation. -/
def seenItem : MovieItem :=
  { id := 1, title := "Seen", posterUrl := "https://x/p.jpg",
    watched := true, order := 0, review := "" }

/-- Sample watchlist holding `seenItem`. -/
def seenList : Watchlist := { id := 0, title := "Hist", icon := "🍿", items := [seenItem] }

/-- Sample store holding `seenList`, with working persistence. -/
def seenStore : St := { watchlists := [seenList], gen := 2, saveOk := true, alerts := [] }

/-- The item the C2 `addItem` instantiation creates. -/
def newUnwatchedItem : MovieItem :=
  { id := 2, title := jsTrim "New", posterUrl := jsTrim "https://a/b.png",
    watched := false, order := (1 : Int), review := "" }

/-- `seenItem` after its review is replaced. -/
def seenItemReviewed : MovieItem := { seenItem with review := "great" }

/-- C1: the code does not satisfy the claim.  With persistence writes
failing, `importWatchlist` of a perfectly valid payload still returns
`true` (so `formImport` announces a successful import) while the durable
collection is unchanged; the only trace of the failed write is the alert
swallowed inside `saveWatchlists`.  No `PersistenceFailure` outcome reaches
the caller. -/
theorem importWatchlist_claims_success_despite_save_failure :
    (importWatchlist (some (.obj [("title", .str "A"), ("icon", .str "🍿"), ("items", .arr [])]))
      { watchlists := [], gen := 0, saveOk := false, alerts := [] }).1 = true ∧
    (importWatchlist (some (.obj [("title", .str "A"), ("icon", .str "🍿"), ("items", .arr [])]))
      { watchlists := [], gen := 0, saveOk := false, alerts := [] }).2.watchlists = [] ∧
    (importWatchlist (some (.obj [("title", .str "A"), ("icon", .str "🍿"), ("items", .arr [])]))
      { watchlists := [], gen := 0, saveOk := false, alerts := [] }).2.alerts
      = ["Unable to save changes. Your storage may be full."] :=
  ⟨by decide, by decide, by decide⟩

/-- C4: a payload that fails structural validation (or fails to parse at
all) makes `importWatchlist` report failure and leaves the stored
collection completely unchanged — no partial import. -/
theorem importWatchlist_invalid_leaves_collection_unchanged (input : Option JVal) (s : St)
    (h : ∀ d, input = some d → validateImportedWatchlist d = false) :
    (importWatchlist input s).1 = false ∧
    (importWatchlist input s).2.watchlists = s.watchlists ∧
    (importWatchlist input s).2.gen = s.gen := by
  cases input with
  | none => exact ⟨rfl, rfl, rfl⟩
  | some d =>
    have hv := h d rfl
    simp [importWatchlist, hv]

/-- C4 witness: a payload whose item has `watched: "yes"` is rejected and
the collection survives untouched. -/
theorem importWatchlist_invalid_leaves_collection_unchanged_witness :
    validateImportedWatchlist nonBooleanWatchedPayload = false ∧
    ((importWatchlist (some nonBooleanWatchedPayload) emptyStore).1 = false ∧
      (importWatchlist (some nonBooleanWatchedPayload) emptyStore).2.watchlists =
        emptyStore.watchlists ∧
      (importWatchlist (some nonBooleanWatchedPayload) emptyStore).2.gen = emptyStore.gen) :=
  ⟨by decide,
    importWatchlist_invalid_leaves_collection_unchanged (some nonBooleanWatchedPayload) emptyStore
      (by intro d hd; cases hd; decide)⟩

/-- C5: `validatePosterUrl` is total, returns true exactly when the text
parses as an absolute URL whose scheme is `http` or `https`, and in
particular rejects empty, relative, malformed, `javascript:` and `ftp:`
inputs while accepting `https://x/y.png`. -/
theorem validatePosterUrl_spec :
    (∀ url : String, validatePosterUrl url = true ↔
      ∃ p, parseProtocol url = some p ∧ (p = "http:" ∨ p = "https:")) ∧
    validatePosterUrl "" = false ∧
    validatePosterUrl "x/y.png" = false ∧
    validatePosterUrl "http://" = false ∧
    validatePosterUrl "javascript:alert(1)" = false ∧
    validatePosterUrl "ftp://x/y" = false ∧
    validatePosterUrl "https://x/y.png" = true := by
  refine ⟨?_, by decide, by decide, by decide, by decide, by decide, by decide⟩
  intro url
  by_cases he : url = ""
  · subst he
    simp [validatePosterUrl, parseProtocol, splitAtColon]
  · simp only [validatePosterUrl, he, if_false]
    cases hp : parseProtocol url with
    | none => simp
    | some p => simp

/-- C5 witness: the characterisation instantiated at `"https://x/y.png"`. -/
theorem validatePosterUrl_spec_witness :
    validatePosterUrl "https://x/y.png" = true ↔
      ∃ p, parseProtocol "https://x/y.png" = some p ∧ (p = "http:" ∨ p = "https:") :=
  validatePosterUrl_spec.1 "https://x/y.png"

/-- C8 counterexample: a stored blob that parses to the (truthy) number 42
— certainly not an ordered sequence of Watchlist records — is returned
as-is by the load path, not resolved to the empty collection. -/
theorem loadWatchlists_truthy_nonarray_counterexample :
    loadWatchlists (StoredBlob.json (JVal.num 42)) = JVal.num 42 ∧
    isArr (loadWatchlists (StoredBlob.json (JVal.num 42))) = false :=
  ⟨rfl, rfl⟩

/-- C8 amended: the load path never fails; an absent key, an unparsable
value, and a value parsing to a falsy JSON value all resolve to the empty
collection — but a value parsing to a truthy JSON value is returned
verbatim, even when it is not a sequence of Watchlist records. -/
theorem loadWatchlists_resilience_amended :
    loadWatchlists .absent = .arr [] ∧
    loadWatchlists .garbage = .arr [] ∧
    (∀ v, jsTruthy v = false → loadWatchlists (.json v) = .arr []) ∧
    (∀ v, jsTruthy v = true → loadWatchlists (.json v) = v) := by
  refine ⟨rfl, rfl, ?_, ?_⟩ <;> intro v hv <;> simp [loadWatchlists, hv]

/-- C8 amended witness: the parsed value `null` (the absent-key case after
JS string coercion) is falsy and resolves to the empty collection. -/
theorem loadWatchlists_resilience_amended_witness :
    jsTruthy JVal.null = false ∧ loadWatchlists (.json JVal.null) = .arr [] :=
  ⟨rfl, loadWatchlists_resilience_amended.2.2.1 JVal.null rfl⟩

theorem updFirst_length (p : α → Bool) (f : α → α) (l : List α) :
    (updFirst p f l).length = l.length := by
  induction l with
  | nil => rfl
  | cons x xs ih =>
    by_cases hp : p x <;> simp [updFirst, hp, ih]

theorem get?_updFirst_or (p : α → Bool) (f : α → α) (l : List α) (i : Nat) (x : α)
    (h : l.get? i = some x) :
    (updFirst p f l).get? i = some x ∨ (updFirst p f l).get? i = some (f x) := by
  induction l generalizing i with
  | nil => simp at h
  | cons y ys ih =>
    by_cases hp : p y
    · cases i with
      | zero =>
        simp only [List.get?_cons_zero, Option.some.injEq] at h
        subst h
        right
        simp [updFirst, hp]
      | succ n =>
        left
        simpa [updFirst, hp] using h
    · cases i with
      | zero =>
        left
        simpa [updFirst, hp] using h
      | succ n =>
        simp only [List.get?_cons_succ] at h
        simpa [updFirst, hp] using ih n h

theorem get?_updFirst_none (p : α → Bool) (f : α → α) (l : List α) (i : Nat)
    (h : l.get? i = none) : (updFirst p f l).get? i = none := by
  rw [List.get?_eq_none] at h ⊢
  rw [updFirst_length]
  exact h

theorem find?_updFirst_spec (p : α → Bool) (f : α → α) (l : List α) (x : α)
    (h : l.find? p = some x) :
    ∃ k, l.get? k = some x ∧ (updFirst p f l).get? k = some (f x) ∧
      ∀ j, j ≠ k → (updFirst p f l).get? j = l.get? j := by
  induction l with
  | nil => simp at h
  | cons y ys ih =>
    by_cases hp : p y
    · rw [List.find?_cons_of_pos ys hp, Option.some.injEq] at h
      subst h
      refine ⟨0, rfl, by simp [updFirst, hp], ?_⟩
      intro j hj
      cases j with
      | zero => exact absurd rfl hj
      | succ n => simp [updFirst, hp]
    · rw [List.find?_cons_of_neg ys hp] at h
      obtain ⟨k, h1, h2, h3⟩ := ih h
      refine ⟨k + 1, by simpa using h1, by simpa [updFirst, hp] using h2, ?_⟩
      intro j hj
      cases j with
      | zero => simp [updFirst, hp]
      | succ n =>
        have hn : n ≠ k := by omega
        simpa [updFirst, hp] using h3 n hn

theorem updFirst_eq_self (p : α → Bool) (f : α → α) (l : List α) (x : α)
    (h : l.find? p = some x) (hfx : f x = x) : updFirst p f l = l := by
  induction l with
  | nil => rfl
  | cons y ys ih =>
    by_cases hp : p y
    · rw [List.find?_cons_of_pos ys hp, Option.some.injEq] at h
      subst h
      simp [updFirst, hp, hfx]
    · rw [List.find?_cons_of_neg ys hp] at h
      simp [updFirst, hp, ih h]

theorem find?_updFirst_pres (p : α → Bool) (f : α → α) (l : List α) (x : α)
    (hpres : ∀ a, p (f a) = p a) (h : l.find? p = some x) :
    (updFirst p f l).find? p = some (f x) := by
  induction l with
  | nil => simp at h
  | cons y ys ih =>
    by_cases hp : p y
    · rw [List.find?_cons_of_pos ys hp, Option.some.injEq] at h
      subst h
      rw [show updFirst p f (y :: ys) = f y :: ys from by simp [updFirst, hp]]
      exact List.find?_cons_of_pos ys (by rw [hpres]; exact hp)
    · rw [List.find?_cons_of_neg ys hp] at h
      rw [show updFirst p f (y :: ys) = y :: updFirst p f ys from by simp [updFirst, hp]]
      rw [List.find?_cons_of_neg _ hp]
      exact ih h

theorem validatePosterUrl_empty : validatePosterUrl "" = false := rfl

theorem addItem_eq_of_valid (wid : Nat) (posterUrl title : String) (s : St) (w : Watchlist)
    (htitle : jsTrim title ≠ "") (hurl : validatePosterUrl (jsTrim posterUrl) = true)
    (hw : s.watchlists.find? (fun wl => wl.id == wid) = some w) :
    addItem wid posterUrl title s =
      saveWatchlists
        (updFirst (fun wl => wl.id == wid)
          (fun wl => { wl with items := wl.items ++
            [{ id := s.gen, title := jsTrim title, posterUrl := jsTrim posterUrl,
               watched := false, order := (w.items.length : Int), review := "" }] })
          s.watchlists)
        { s with gen := s.gen + 1 } := by
  have hp : jsTrim posterUrl ≠ "" := by
    intro h
    rw [h] at hurl
    exact absurd hurl (by simp [validatePosterUrl])
  simp [addItem, hp, htitle, hurl, hw]

/-- C6: on an existing watchlist and a valid title/posterUrl pair, `addItem`
appends exactly one item — with a fresh id, `watched = false`,
`review = ""`, and `order` equal to the watchlist's item count immediately
before the call — to the resolved watchlist, and every other watchlist (and
every pre-existing item, since the old items form a prefix of the new
list) is unchanged. -/
theorem addItem_appends (wid : Nat) (posterUrl title : String) (s : St) (w : Watchlist)
    (hsave : s.saveOk = true)
    (htitle : jsTrim title ≠ "")
    (hurl : validatePosterUrl (jsTrim posterUrl) = true)
    (hw : s.watchlists.find? (fun wl => wl.id == wid) = some w)
    (hids : IdsBelow s) :
    (addItem wid posterUrl title s).gen = s.gen + 1 ∧
    (∀ w' ∈ s.watchlists, ∀ m ∈ w'.items, m.id ≠ s.gen) ∧
    ∃ k, s.watchlists.get? k = some w ∧
      (addItem wid posterUrl title s).watchlists.get? k =
        some { w with items := w.items ++
          [{ id := s.gen, title := jsTrim title, posterUrl := jsTrim posterUrl,
             watched := false, order := (w.items.length : Int), review := "" }] } ∧
      (∀ j, j ≠ k → (addItem wid posterUrl title s).watchlists.get? j = s.watchlists.get? j) ∧
      (addItem wid posterUrl title s).watchlists.length = s.watchlists.length := by
  rw [addItem_eq_of_valid wid posterUrl title s w htitle hurl hw]
  have hfresh : ∀ w' ∈ s.watchlists, ∀ m ∈ w'.items, m.id ≠ s.gen := by
    intro w' hw' m hm
    have := (hids w' hw').2 m hm
    omega
  obtain ⟨k, h1, h2, h3⟩ := find?_updFirst_spec (fun wl => wl.id == wid)
    (fun wl => { wl with items := wl.items ++
      [{ id := s.gen, title := jsTrim title, posterUrl := jsTrim posterUrl,
         watched := false, order := (w.items.length : Int), review := "" }] })
    s.watchlists w hw
  refine ⟨by simp [saveWatchlists, hsave], hfresh, k, h1, ?_, ?_, ?_⟩
  · simpa [saveWatchlists, hsave] using h2
  · intro j hj
    simpa [saveWatchlists, hsave] using h3 j hj
  · simp [saveWatchlists, hsave, updFirst_length]

/-- C6 witness: adding "Iron Man 2" to a one-item watchlist appends it at
order 1 with a fresh id. -/
theorem addItem_appends_witness :
    (jsTrim "Iron Man 2" ≠ "" ∧
      validatePosterUrl (jsTrim "https://img/im2.jpg") = true) ∧
    ((addItem 0 "https://img/im2.jpg" "Iron Man 2" mcuStore).gen = 3 ∧
      (∀ w' ∈ mcuStore.watchlists, ∀ m ∈ w'.items, m.id ≠ 2) ∧
      ∃ k, mcuStore.watchlists.get? k = some mcuList ∧
        (addItem 0 "https://img/im2.jpg" "Iron Man 2" mcuStore).watchlists.get? k =
          some { mcuList with items := mcuList.items ++ [ironMan2] } ∧
        (∀ j, j ≠ k →
          (addItem 0 "https://img/im2.jpg" "Iron Man 2" mcuStore).watchlists.get? j =
            mcuStore.watchlists.get? j) ∧
        (addItem 0 "https://img/im2.jpg" "Iron Man 2" mcuStore).watchlists.length =
          mcuStore.watchlists.length) :=
  ⟨⟨by decide, by decide⟩,
    addItem_appends 0 "https://img/im2.jpg" "Iron Man 2" mcuStore mcuList
      rfl (by decide) (by decide) (by decide) (by decide)⟩

theorem markWatched_eq_of_found (wid iid : Nat) (s : St) (w : Watchlist) (m : MovieItem)
    (hw : s.watchlists.find? (fun wl => wl.id == wid) = some w)
    (hm : w.items.find? (fun x => x.id == iid) = some m) :
    markWatched wid iid s =
      (true, saveWatchlists (updFirst (fun wl => wl.id == wid) (markItemUpd iid) s.watchlists) s) := by
  simp [markWatched, hw, hm]

/-- C7: when both ids resolve, `markWatched` completes (reaches the
mutation, no error path), leaves the item with `watched = true`, and a
second call in a row is a no-op success: it also completes and returns the
state unchanged, so the item is still `watched = true`. -/
theorem markWatched_idempotent (wid iid : Nat) (s : St) (w : Watchlist) (m : MovieItem)
    (hsave : s.saveOk = true)
    (hw : s.watchlists.find? (fun wl => wl.id == wid) = some w)
    (hm : w.items.find? (fun x => x.id == iid) = some m) :
    (markWatched wid iid s).1 = true ∧
    (∃ w1 m1, (markWatched wid iid s).2.watchlists.find? (fun wl => wl.id == wid) = some w1 ∧
      w1.items.find? (fun x => x.id == iid) = some m1 ∧ m1.watched = true) ∧
    markWatched wid iid (markWatched wid iid s).2 = (true, (markWatched wid iid s).2) := by
  have hstep := markWatched_eq_of_found wid iid s w m hw hm
  have hsv : ∀ ws, saveWatchlists ws s = { s with watchlists := ws } := by
    intro ws
    simp [saveWatchlists, hsave]
  rw [hstep, hsv]
  have hfw1 : (updFirst (fun wl => wl.id == wid) (markItemUpd iid) s.watchlists).find?
      (fun wl => wl.id == wid) = some (markItemUpd iid w) :=
    find?_updFirst_pres _ _ _ _ (fun a => rfl) hw
  have hfm1 : (markItemUpd iid w).items.find? (fun x => x.id == iid) = some (setWatchedTrue m) :=
    find?_updFirst_pres _ _ _ _ (fun a => rfl) hm
  have hfix : markItemUpd iid (markItemUpd iid w) = markItemUpd iid w := by
    have h2 := updFirst_eq_self (fun x => x.id == iid) setWatchedTrue
      (markItemUpd iid w).items (setWatchedTrue m) hfm1 rfl
    simp only [markItemUpd] at h2 ⊢
    simp [h2]
  have hupd2 := updFirst_eq_self (fun wl => wl.id == wid) (markItemUpd iid)
    (updFirst (fun wl => wl.id == wid) (markItemUpd iid) s.watchlists) _ hfw1 hfix
  refine ⟨rfl, ⟨_, _, hfw1, hfm1, rfl⟩, ?_⟩
  simp [markWatched, hfw1, hfm1, hupd2, saveWatchlists, hsave]

/-- C7 witness: marking the sample item watched twice on the sample store. -/
theorem markWatched_idempotent_witness :
    (markWatched 0 1 mcuStore).1 = true ∧
    (∃ w1 m1, (markWatched 0 1 mcuStore).2.watchlists.find? (fun wl => wl.id == 0) = some w1 ∧
      w1.items.find? (fun x => x.id == 1) = some m1 ∧ m1.watched = true) ∧
    markWatched 0 1 (markWatched 0 1 mcuStore).2 = (true, (markWatched 0 1 mcuStore).2) :=
  markWatched_idempotent 0 1 mcuStore mcuList ironMan rfl (by decide) (by decide)

theorem lookupField_setFieldList_same (fs : List (String × JVal)) (k : String) (v : JVal) :
    lookupField (setFieldList fs k v) k = some v := by
  induction fs with
  | nil => simp [setFieldList, lookupField]
  | cons q rest ih =>
    obtain ⟨a, b⟩ := q
    by_cases ha : a = k
    · simp [setFieldList, ha, lookupField]
    · simp [setFieldList, ha, lookupField, ih]

theorem lookupField_setFieldList_other (fs : List (String × JVal)) (k q : String) (v : JVal)
    (h : k ≠ q) :
    lookupField (setFieldList fs k v) q = lookupField fs q := by
  induction fs with
  | nil => simp [setFieldList, lookupField, h]
  | cons r rest ih =>
    obtain ⟨a, b⟩ := r
    by_cases ha : a = k
    · subst ha
      simp [setFieldList, lookupField, h]
    · simp [setFieldList, ha, lookupField, ih]

theorem importWatchlist_valid_eq (d : JVal) (s : St)
    (hv : validateImportedWatchlist d = true) :
    importWatchlist (some d) s =
      (true, saveWatchlists (s.watchlists ++ [importedWatchlist d s])
        { s with gen := s.gen + 1 + ((getArr (getField d "items")).map extractParts).length }) := by
  simp [importWatchlist, hv, importedWatchlist, createShareableOf]

/-- C9: the import path applies no content rule to `icon` — validation's
verdict is the same for every string put in the `icon` field (unlike
titles and poster URLs), and a successful import copies that string
verbatim into the appended watchlist. -/
theorem import_icon_not_content_validated (d : JVal) (s t : String) (st : St)
    (hsave : st.saveOk = true) :
    validateImportedWatchlist (setField d "icon" (.str s)) =
      validateImportedWatchlist (setField d "icon" (.str t)) ∧
    (validateImportedWatchlist (setField d "icon" (.str s)) = true →
      (importWatchlist (some (setField d "icon" (.str s))) st).1 = true ∧
      ∃ nw, (importWatchlist (some (setField d "icon" (.str s))) st).2.watchlists =
          st.watchlists ++ [nw] ∧ nw.icon = s) := by
  have hti : ("icon" : String) ≠ "title" := by decide
  have hit : ("icon" : String) ≠ "items" := by decide
  constructor
  · cases d with
    | obj fs =>
      simp only [setField, validateImportedWatchlist, getField, isTypeofObject, jsTruthy,
        lookupField_setFieldList_same,
        lookupField_setFieldList_other fs "icon" "title" (.str s) hti,
        lookupField_setFieldList_other fs "icon" "items" (.str s) hit,
        lookupField_setFieldList_other fs "icon" "title" (.str t) hti,
        lookupField_setFieldList_other fs "icon" "items" (.str t) hit]
    | null => rfl
    | bool b => rfl
    | num n => rfl
    | str x => rfl
    | arr xs => rfl
  · intro hv
    rw [importWatchlist_valid_eq _ _ hv]
    refine ⟨rfl, importedWatchlist (setField d "icon" (.str s)) st, ?_, ?_⟩
    · simp [saveWatchlists, hsave]
    · cases d with
      | obj fs =>
        simp [importedWatchlist, createShareableOf, setField, getField,
          lookupField_setFieldList_same, getStr]
      | null => exact absurd hv (by simp [setField, validateImportedWatchlist, getField])
      | bool b => exact absurd hv (by simp [setField, validateImportedWatchlist, getField])
      | num n => exact absurd hv (by simp [setField, validateImportedWatchlist, getField])
      | str x => exact absurd hv (by simp [setField, validateImportedWatchlist, getField])
      | arr xs => exact absurd hv (by simp [setField, validateImportedWatchlist, getField])

/-- C9 witness: icons `"<b>hi</b>"` and `""` validate identically, and the
markup icon is stored verbatim. -/
theorem import_icon_not_content_validated_witness :
    validateImportedWatchlist (setField iconProbe "icon" (.str "<b>hi</b>")) =
      validateImportedWatchlist (setField iconProbe "icon" (.str "")) ∧
    (validateImportedWatchlist (setField iconProbe "icon" (.str "<b>hi</b>")) = true →
      (importWatchlist (some (setField iconProbe "icon" (.str "<b>hi</b>"))) emptyStore).1 = true ∧
      ∃ nw, (importWatchlist (some (setField iconProbe "icon" (.str "<b>hi</b>"))) emptyStore).2.watchlists =
          emptyStore.watchlists ++ [nw] ∧ nw.icon = "<b>hi</b>") :=
  import_icon_not_content_validated iconProbe "<b>hi</b>" "" emptyStore rfl

/-- C10: when any existing watchlist's lowercased title matches the
incoming title, the suffix is appended exactly once and the renamed title
is not re-checked: the import succeeds, appends a watchlist titled
`T ++ " (Shared with me)"`, and the number of stored watchlists bearing
that suffixed title grows by one — so titles need not stay unique. -/
theorem import_collision_suffix_applied_once (s : St) (d : JVal) (T : String)
    (hvalid : validateImportedWatchlist d = true)
    (htitle : getField d "title" = some (.str T))
    (hdup : s.watchlists.any (fun wl => jsToLower wl.title == jsToLower T) = true)
    (hsave : s.saveOk = true) :
    (importWatchlist (some d) s).1 = true ∧
    ∃ nw, (importWatchlist (some d) s).2.watchlists = s.watchlists ++ [nw] ∧
      nw.title = T ++ " (Shared with me)" ∧
      (importWatchlist (some d) s).2.watchlists.countP
          (fun wl => wl.title == T ++ " (Shared with me)") =
        s.watchlists.countP (fun wl => wl.title == T ++ " (Shared with me)") + 1 := by
  rw [importWatchlist_valid_eq _ _ hvalid]
  have hnw : (importedWatchlist d s).title = T ++ " (Shared with me)" := by
    simp [importedWatchlist, createShareableOf, htitle, getStr, hdup]
  refine ⟨rfl, importedWatchlist d s, ?_, hnw, ?_⟩
  · simp [saveWatchlists, hsave]
  · simp only [saveWatchlists, hsave, if_true]
    rw [List.countP_append]
    simp [List.countP_cons, hnw]

/-- C10 witness: with "X" and "X (Shared with me)" both stored, importing
a payload titled "X" appends a second "X (Shared with me)". -/
theorem import_collision_suffix_applied_once_witness :
    xStore.watchlists.any (fun wl => jsToLower wl.title == jsToLower "X") = true ∧
    ((importWatchlist (some xPayload) xStore).1 = true ∧
      ∃ nw, (importWatchlist (some xPayload) xStore).2.watchlists = xStore.watchlists ++ [nw] ∧
        nw.title = "X" ++ " (Shared with me)" ∧
        (importWatchlist (some xPayload) xStore).2.watchlists.countP
            (fun wl => wl.title == "X" ++ " (Shared with me)") =
          xStore.watchlists.countP (fun wl => wl.title == "X" ++ " (Shared with me)") + 1) :=
  ⟨by decide,
    import_collision_suffix_applied_once xStore xPayload "X" (by decide) rfl (by decide) rfl⟩

theorem shareItems_map_parts (parts : List (String × String)) (g idx : Nat) :
    (shareItems parts g idx).map (fun m => (m.title, m.posterUrl)) = parts := by
  induction parts generalizing g idx with
  | nil => rfl
  | cons q rest ih =>
    obtain ⟨t, u⟩ := q
    simp [shareItems, ih]

theorem mem_shareItems_reset (parts : List (String × String)) (g idx : Nat) (m : MovieItem)
    (hm : m ∈ shareItems parts g idx) : m.watched = false ∧ m.review = "" := by
  induction parts generalizing g idx with
  | nil => simp [shareItems] at hm
  | cons q rest ih =>
    obtain ⟨t, u⟩ := q
    simp only [shareItems, List.mem_cons] at hm
    rcases hm with hm | hm
    · subst hm
      exact ⟨rfl, rfl⟩
    · exact ih (g + 1) (idx + 1) hm

theorem getField_encodeItem_title (m : MovieItem) :
    getField (encodeItem m) "title" = some (.str m.title) := rfl

theorem getField_encodeItem_poster (m : MovieItem) :
    getField (encodeItem m) "posterUrl" = some (.str m.posterUrl) := rfl

theorem getField_encodeItem_watched (m : MovieItem) :
    getField (encodeItem m) "watched" = some (.bool m.watched) := rfl

theorem getField_encodeItem_order (m : MovieItem) :
    getField (encodeItem m) "order" = some (.num m.order) := rfl

theorem jsTruthy_encodeItem (m : MovieItem) : jsTruthy (encodeItem m) = true := rfl

theorem validItem_encodeItem (m : MovieItem) :
    validItem (encodeItem m) = true ↔ (jsTrim m.title ≠ "" ∧ validatePosterUrl m.posterUrl = true) := by
  unfold validItem
  rw [getField_encodeItem_title, getField_encodeItem_poster, getField_encodeItem_watched,
    getField_encodeItem_order, jsTruthy_encodeItem]
  simp

theorem getField_encodeWatchlist_title (sw : Watchlist) :
    getField (encodeWatchlist sw) "title" = some (.str sw.title) := rfl

theorem getField_encodeWatchlist_icon (sw : Watchlist) :
    getField (encodeWatchlist sw) "icon" = some (.str sw.icon) := rfl

theorem getField_encodeWatchlist_items (sw : Watchlist) :
    getField (encodeWatchlist sw) "items" = some (.arr (sw.items.map encodeItem)) := rfl

theorem validate_encodeWatchlist (sw : Watchlist)
    (hT : jsTrim sw.title ≠ "")
    (hItems : ∀ m ∈ sw.items, jsTrim m.title ≠ "" ∧ validatePosterUrl m.posterUrl = true) :
    validateImportedWatchlist (encodeWatchlist sw) = true := by
  unfold validateImportedWatchlist
  rw [getField_encodeWatchlist_title, getField_encodeWatchlist_icon,
    getField_encodeWatchlist_items]
  simp only [isTypeofObject, encodeWatchlist, jsTruthy, Bool.and_eq_true, List.all_map,
    List.all_eq_true, bne_iff_ne, ne_eq, and_true, true_and]
  refine ⟨by simpa using hT, ?_⟩
  intro mj hmj
  rw [List.mem_map] at hmj
  obtain ⟨x, hx, hxe⟩ := hmj
  subst hxe
  rw [validItem_encodeItem]
  exact hItems x hx

/-- C3: re-importing an export of `w` (whose stored fields satisfy the
creation-time validation rules) succeeds and appends a watchlist titled
`w.title` — suffixed with `" (Shared with me)"` exactly when some existing
watchlist collides case-insensitively — whose items carry the same titles
and poster URLs in the same order as `w`, all unwatched and with empty
reviews. -/
theorem export_import_roundTrip (w : Watchlist) (g : Nat) (s : St)
    (hsave : s.saveOk = true)
    (hT : jsTrim w.title ≠ "")
    (hItems : ∀ m ∈ w.items, jsTrim m.title ≠ "" ∧ validatePosterUrl m.posterUrl = true) :
    (importWatchlist (some (exportWatchlist w g).1) s).1 = true ∧
    ∃ nw, (importWatchlist (some (exportWatchlist w g).1) s).2.watchlists =
        s.watchlists ++ [nw] ∧
      nw.title = (if s.watchlists.any (fun wl => jsToLower wl.title == jsToLower w.title)
        then w.title ++ " (Shared with me)" else w.title) ∧
      nw.items.map (fun m => (m.title, m.posterUrl)) =
        w.items.map (fun m => (m.title, m.posterUrl)) ∧
      ∀ m ∈ nw.items, m.watched = false ∧ m.review = "" := by
  have hparts : ((createShareableWatchlist w g).1.items).map (fun m => (m.title, m.posterUrl)) =
      w.items.map (fun m => (m.title, m.posterUrl)) :=
    shareItems_map_parts _ _ _
  have hswItems : ∀ m ∈ (createShareableWatchlist w g).1.items,
      jsTrim m.title ≠ "" ∧ validatePosterUrl m.posterUrl = true := by
    intro m hm
    have hpair : (m.title, m.posterUrl) ∈ w.items.map (fun x => (x.title, x.posterUrl)) := by
      rw [← hparts]
      exact List.mem_map_of_mem _ hm
    simp only [List.mem_map] at hpair
    obtain ⟨x, hx, hxe⟩ := hpair
    have h1 : m.title = x.title := congrArg Prod.fst hxe.symm
    have h2 : m.posterUrl = x.posterUrl := congrArg Prod.snd hxe.symm
    rw [h1, h2]
    exact hItems x hx
  have hv : validateImportedWatchlist (exportWatchlist w g).1 = true :=
    validate_encodeWatchlist (createShareableWatchlist w g).1 hT hswItems
  rw [importWatchlist_valid_eq _ _ hv]
  refine ⟨rfl, importedWatchlist (exportWatchlist w g).1 s, by simp [saveWatchlists, hsave],
    rfl, ?_, ?_⟩
  · show (shareItems (((createShareableWatchlist w g).1.items.map encodeItem).map extractParts)
      (s.gen + 1) 0).map (fun m => (m.title, m.posterUrl)) =
      w.items.map (fun m => (m.title, m.posterUrl))
    rw [shareItems_map_parts]
    rw [List.map_map]
    exact hparts
  · intro m hm
    exact mem_shareItems_reset _ _ _ m hm

/-- C3 witness: re-importing the export of the sample stored watchlist into
its own store appends the suffixed copy with the same item parts, reset. -/
theorem export_import_roundTrip_witness :
    jsTrim mcuList.title ≠ "" ∧
    ((importWatchlist (some (exportWatchlist mcuList 2).1) mcuStore).1 = true ∧
      ∃ nw, (importWatchlist (some (exportWatchlist mcuList 2).1) mcuStore).2.watchlists =
          mcuStore.watchlists ++ [nw] ∧
        nw.title = (if mcuStore.watchlists.any
            (fun wl => jsToLower wl.title == jsToLower mcuList.title)
          then mcuList.title ++ " (Shared with me)" else mcuList.title) ∧
        nw.items.map (fun m => (m.title, m.posterUrl)) =
          mcuList.items.map (fun m => (m.title, m.posterUrl)) ∧
        ∀ m ∈ nw.items, m.watched = false ∧ m.review = "") :=
  ⟨by decide,
    export_import_roundTrip mcuList 2 mcuStore rfl (by decide) (by decide)⟩

theorem monoW_refl (ws : List Watchlist) : MonoW ws ws :=
  fun _ _ m h => ⟨m, h, id⟩

theorem monoW_trans (a b c : List Watchlist) (h1 : MonoW a b) (h2 : MonoW b c) : MonoW a c := by
  intro wi ii m hm
  obtain ⟨m1, hm1, hw1⟩ := h1 wi ii m hm
  obtain ⟨m2, hm2, hw2⟩ := h2 wi ii m1 hm1
  exact ⟨m2, hm2, fun h => hw2 (hw1 h)⟩

theorem monoW_append (ws l : List Watchlist) : MonoW ws (ws ++ l) := by
  intro wi ii m hm
  refine ⟨m, ?_, id⟩
  unfold itemAt at hm ⊢
  cases hg : ws.get? wi with
  | none => rw [hg] at hm; simp at hm
  | some w =>
    rw [hg] at hm
    have hlt : wi < ws.length := by
      by_contra hge
      push_neg at hge
      rw [List.get?_eq_none.mpr hge] at hg
      simp at hg
    rw [List.get?_append hlt, hg]
    exact hm

theorem monoW_updFirst (ws : List Watchlist) (p : Watchlist → Bool) (f : Watchlist → Watchlist)
    (hf : ∀ wl ii m, wl.items.get? ii = some m →
      ∃ m', (f wl).items.get? ii = some m' ∧ (m.watched = true → m'.watched = true)) :
    MonoW ws (updFirst p f ws) := by
  intro wi ii m hm
  unfold itemAt at hm ⊢
  cases hg : ws.get? wi with
  | none => rw [hg] at hm; simp at hm
  | some w =>
    rw [hg] at hm
    rcases get?_updFirst_or p f ws wi w hg with h' | h'
    · rw [h']
      exact ⟨m, hm, id⟩
    · rw [h']
      exact hf w ii m hm

theorem createWatchlist_shape (t : String) (s : St) :
    (createWatchlist t s).watchlists = s.watchlists ∨
    ∃ nw, (createWatchlist t s).watchlists = s.watchlists ++ [nw] ∧ nw.items = [] := by
  simp only [createWatchlist, saveWatchlists]
  split
  · exact Or.inl rfl
  · split
    · exact Or.inr ⟨_, rfl, rfl⟩
    · exact Or.inl (by simp)

theorem addItem_shape (wid : Nat) (p t : String) (s : St) :
    (addItem wid p t s).watchlists = s.watchlists ∨
    ∃ mv, (addItem wid p t s).watchlists =
      updFirst (fun wl => wl.id == wid) (fun wl => { wl with items := wl.items ++ [mv] })
        s.watchlists ∧ mv.watched = false := by
  simp only [addItem, saveWatchlists]
  split
  · exact Or.inl rfl
  · split
    · exact Or.inl rfl
    · split
      · exact Or.inl rfl
      · split
        · exact Or.inr ⟨_, rfl, rfl⟩
        · exact Or.inl (by simp)

theorem markWatched_shape (wid iid : Nat) (s : St) :
    (markWatched wid iid s).2.watchlists = s.watchlists ∨
    (markWatched wid iid s).2.watchlists =
      updFirst (fun wl => wl.id == wid) (markItemUpd iid) s.watchlists := by
  simp only [markWatched, saveWatchlists]
  split
  · exact Or.inl rfl
  · split
    · exact Or.inl rfl
    · split
      · exact Or.inr (by simp)
      · exact Or.inl (by simp)

theorem setReview_shape (wid iid : Nat) (text : String) (s : St) :
    (setReview wid iid text s).watchlists = s.watchlists ∨
    (setReview wid iid text s).watchlists =
      updFirst (fun wl => wl.id == wid) (reviewItemUpd iid (jsTrim text)) s.watchlists := by
  simp only [setReview, saveWatchlists]
  split
  · exact Or.inl rfl
  · split
    · exact Or.inl rfl
    · split
      · exact Or.inr (by simp)
      · exact Or.inl (by simp)

theorem handleShareWatchlist_watchlists (wid : Nat) (s : St) :
    (handleShareWatchlist wid s).watchlists = s.watchlists := by
  unfold handleShareWatchlist
  split <;> rfl

theorem importWatchlist_shape (inp : Option JVal) (s : St) :
    (importWatchlist inp s).2.watchlists = s.watchlists ∨
    ∃ nw, (∀ m ∈ nw.items, m.watched = false) ∧
      (importWatchlist inp s).2.watchlists = s.watchlists ++ [nw] := by
  cases inp with
  | none => exact Or.inl rfl
  | some d =>
    cases hv : validateImportedWatchlist d with
    | false => exact Or.inl (by simp [importWatchlist, hv])
    | true =>
      rw [importWatchlist_valid_eq d s hv]
      simp only [saveWatchlists]
      split
      · refine Or.inr ⟨importedWatchlist d s, ?_, by simp⟩
        intro m hm
        exact (mem_shareItems_reset _ _ _ m hm).1
      · exact Or.inl (by simp)

theorem stepOp_monoW (s : St) (op : Op) : MonoW s.watchlists (stepOp s op).watchlists := by
  cases op with
  | create t =>
    rcases createWatchlist_shape t s with h | ⟨nw, h, _⟩
    · rw [stepOp, h]
      exact monoW_refl _
    · rw [stepOp, h]
      exact monoW_append _ _
  | add wid p t =>
    rcases addItem_shape wid p t s with h | ⟨mv, h, _⟩
    · rw [stepOp, h]
      exact monoW_refl _
    · rw [stepOp, h]
      refine monoW_updFirst _ _ _ ?_
      intro wl ii m hm
      refine ⟨m, ?_, id⟩
      have hlt : ii < wl.items.length := by
        by_contra hge
        push_neg at hge
        rw [List.get?_eq_none.mpr hge] at hm
        simp at hm
      rw [List.get?_append hlt]
      exact hm
  | mark wid iid =>
    rcases markWatched_shape wid iid s with h | h
    · rw [stepOp, h]
      exact monoW_refl _
    · rw [stepOp, h]
      refine monoW_updFirst _ _ _ ?_
      intro wl ii m hm
      rcases get?_updFirst_or (fun x => x.id == iid) setWatchedTrue wl.items ii m hm with h' | h'
      · exact ⟨m, h', id⟩
      · exact ⟨setWatchedTrue m, h', fun _ => rfl⟩
  | review wid iid text =>
    rcases setReview_shape wid iid text s with h | h
    · rw [stepOp, h]
      exact monoW_refl _
    · rw [stepOp, h]
      refine monoW_updFirst _ _ _ ?_
      intro wl ii m hm
      rcases get?_updFirst_or (fun x => x.id == iid) (setReviewTo (jsTrim text)) wl.items ii m hm
        with h' | h'
      · exact ⟨m, h', id⟩
      · exact ⟨setReviewTo (jsTrim text) m, h', fun hw => hw⟩
  | exportOp wid =>
    rw [stepOp, handleShareWatchlist_watchlists]
    exact monoW_refl _
  | importOp inp =>
    rcases importWatchlist_shape inp s with h | ⟨nw, _, h⟩
    · rw [stepOp, h]
      exact monoW_refl _
    · rw [stepOp, h]
      exact monoW_append _ _

theorem runOps_monoW (s : St) (ops : List Op) :
    MonoW s.watchlists (runOps s ops).watchlists := by
  induction ops generalizing s with
  | nil => exact monoW_refl _
  | cons op rest ih =>
    exact monoW_trans _ _ _ (stepOp_monoW s op) (ih (stepOp s op))

theorem get?_append_singleton_of_none (l : List α) (y : α) (n : Nat) (x : α)
    (hn : l.get? n = none) (hx : (l ++ [y]).get? n = some x) : x = y := by
  have hlen : l.length ≤ n := List.get?_eq_none.mp hn
  rw [List.get?_append_right hlen] at hx
  cases hd : n - l.length with
  | zero =>
    rw [hd] at hx
    simp at hx
    exact hx.symm
  | succ k =>
    rw [hd] at hx
    simp at hx

theorem itemAt_append_unwatched (ws : List Watchlist) (nw : Watchlist) (wi ii : Nat)
    (m' : MovieItem)
    (hall : ∀ m ∈ nw.items, m.watched = false)
    (hnone : itemAt ws wi ii = none)
    (hsome : itemAt (ws ++ [nw]) wi ii = some m') : m'.watched = false := by
  unfold itemAt at hnone hsome
  cases hg : ws.get? wi with
  | some w =>
    rw [hg] at hnone
    have hlt : wi < ws.length := by
      by_contra hge
      push_neg at hge
      rw [List.get?_eq_none.mpr hge] at hg
      simp at hg
    rw [List.get?_append hlt, hg, hnone] at hsome
    simp at hsome
  | none =>
    have hge : ws.length ≤ wi := List.get?_eq_none.mp hg
    rw [List.get?_append_right hge] at hsome
    cases hd : wi - ws.length with
    | zero =>
      rw [hd] at hsome
      simp only [List.get?_cons_zero] at hsome
      exact hall m' (List.get?_mem hsome)
    | succ k =>
      rw [hd] at hsome
      simp at hsome

theorem itemAt_updFirst_append_unwatched (ws : List Watchlist) (wid : Nat) (mv : MovieItem)
    (wi ii : Nat) (m' : MovieItem)
    (hmv : mv.watched = false)
    (hnone : itemAt ws wi ii = none)
    (hsome : itemAt (updFirst (fun wl => wl.id == wid)
      (fun wl => { wl with items := wl.items ++ [mv] }) ws) wi ii = some m') :
    m'.watched = false := by
  unfold itemAt at hnone hsome
  cases hg : ws.get? wi with
  | none =>
    rw [get?_updFirst_none _ _ _ _ hg] at hsome
    simp at hsome
  | some w =>
    rw [hg] at hnone
    rcases get?_updFirst_or (fun wl => wl.id == wid)
      (fun wl => { wl with items := wl.items ++ [mv] }) ws wi w hg with h' | h'
    · rw [h', hnone] at hsome
      simp at hsome
    · rw [h'] at hsome
      have := get?_append_singleton_of_none w.items mv ii m' hnone hsome
      rw [this]
      exact hmv

theorem itemAt_updFirst_len_none (ws : List Watchlist) (p : Watchlist → Bool)
    (f : Watchlist → Watchlist) (wi ii : Nat)
    (hlen : ∀ wl, (f wl).items.length = wl.items.length)
    (hnone : itemAt ws wi ii = none) : itemAt (updFirst p f ws) wi ii = none := by
  unfold itemAt at hnone ⊢
  cases hg : ws.get? wi with
  | none => rw [get?_updFirst_none _ _ _ _ hg]
  | some w =>
    rw [hg] at hnone
    rcases get?_updFirst_or p f ws wi w hg with h' | h'
    · rw [h']
      exact hnone
    · rw [h']
      rw [List.get?_eq_none] at hnone ⊢
      rw [hlen]
      exact hnone

theorem stepOp_new_item_unwatched (s : St) (op : Op) (wi ii : Nat) (m' : MovieItem)
    (hnone : itemAt s.watchlists wi ii = none)
    (hsome : itemAt (stepOp s op).watchlists wi ii = some m') :
    m'.watched = false := by
  cases op with
  | create t =>
    rcases createWatchlist_shape t s with h | ⟨nw, h, hnil⟩
    · rw [stepOp, h, hnone] at hsome
      simp at hsome
    · rw [stepOp, h] at hsome
      refine itemAt_append_unwatched s.watchlists nw wi ii m' ?_ hnone hsome
      intro m hm
      rw [hnil] at hm
      simp at hm
  | add wid p t =>
    rcases addItem_shape wid p t s with h | ⟨mv, h, hmv⟩
    · rw [stepOp, h, hnone] at hsome
      simp at hsome
    · rw [stepOp, h] at hsome
      exact itemAt_updFirst_append_unwatched s.watchlists wid mv wi ii m' hmv hnone hsome
  | mark wid iid =>
    rcases markWatched_shape wid iid s with h | h
    · rw [stepOp, h, hnone] at hsome
      simp at hsome
    · rw [stepOp, h] at hsome
      rw [itemAt_updFirst_len_none s.watchlists _ _ wi ii
        (fun wl => updFirst_length _ _ _) hnone] at hsome
      simp at hsome
  | review wid iid text =>
    rcases setReview_shape wid iid text s with h | h
    · rw [stepOp, h, hnone] at hsome
      simp at hsome
    · rw [stepOp, h] at hsome
      rw [itemAt_updFirst_len_none s.watchlists _ _ wi ii
        (fun wl => updFirst_length _ _ _) hnone] at hsome
      simp at hsome
  | exportOp wid =>
    rw [stepOp, handleShareWatchlist_watchlists, hnone] at hsome
    simp at hsome
  | importOp inp =>
    rcases importWatchlist_shape inp s with h | ⟨nw, hall, h⟩
    · rw [stepOp, h, hnone] at hsome
      simp at hsome
    · rw [stepOp, h] at hsome
      exact itemAt_append_unwatched s.watchlists nw wi ii m' hall hnone hsome

/-- C2: watched-state monotonicity.  First part: across any sequence of the
core operations, an item position that is watched never becomes unwatched.
Second part: an item position newly created by any single operation starts
with `watched = false` (the only write to `watched` sets it to `true`). -/
theorem watched_monotone :
    (∀ (s : St) (ops : List Op) (wi ii : Nat) (m mf : MovieItem),
      itemAt s.watchlists wi ii = some m →
      itemAt (runOps s ops).watchlists wi ii = some mf →
      m.watched = true → mf.watched = true) ∧
    (∀ (s : St) (op : Op) (wi ii : Nat) (mf : MovieItem),
      itemAt s.watchlists wi ii = none →
      itemAt (stepOp s op).watchlists wi ii = some mf →
      mf.watched = false) := by
  constructor
  · intro s ops wi ii m mf hm hmf hw
    obtain ⟨m2, hm2, hw2⟩ := runOps_monoW s ops wi ii m hm
    rw [hmf] at hm2
    injection hm2 with he
    rw [he]
    exact hw2 hw
  · exact stepOp_new_item_unwatched

/-- C2 witness: a watched item stays watched across a review edit, and an
`addItem` step creates its item unwatched. -/
theorem watched_monotone_witness :
    seenItemReviewed.watched = true ∧ newUnwatchedItem.watched = false :=
  ⟨watched_monotone.1 seenStore [Op.review 0 1 "great"] 0 0 seenItem
      seenItemReviewed (by decide) (by decide) (by decide),
    watched_monotone.2 seenStore (Op.add 0 "https://a/b.png" "New") 0 1
      newUnwatchedItem (by decide) (by decide)⟩

end WatchlistPlus
